import Mathlib

/-!
Shallow embedding of the `openclaw-better-gateway` plugin:
the client-side WebSocket reconnect engine (`src/inject.js`) and the
server-side proxy/HTML-injection layer (`src/index.ts`).  Text is
modelled as `List Char`; machine strings from the source appear as
Lean string literals converted with `.toList`.
-/

namespace BetterGateway

/-! ## Generic text utilities (JS `String.includes` / `String.replace`) -/

/-- Number of positions in `s` where `pat` occurs (overlapping counted). -/
def countOccs (pat : List Char) : List Char → Nat
  | [] => 0
  | c :: t => (if pat.isPrefixOf (c :: t) then 1 else 0) + countOccs pat t

/-- JS `String.prototype.includes` (substring test). -/
def containsSub (pat : List Char) : List Char → Bool
  | [] => pat.isEmpty
  | c :: t => pat.isPrefixOf (c :: t) || containsSub pat t

/-- First-occurrence textual replacement, the semantics of JS
`String.prototype.replace` with a plain-string pattern (the replacement
strings used by the plugin contain no `$` substitution patterns). -/
def replaceFirst (pat repl : List Char) : List Char → List Char
  | [] => []
  | c :: t =>
    if pat.isPrefixOf (c :: t) then repl ++ (c :: t).drop pat.length
    else c :: replaceFirst pat repl t

/-! ## Reconnect engine (`src/inject.js`)

The injected script keeps module-level state: `reconnectAttempts`,
`activeConnections` (a `Set`, modelled by its size), `currentState`
(a string among `"connected" | "disconnected" | "reconnecting" | "failed"`,
modelled by an enum) and the status-indicator element's `innerHTML`.
Socket lifecycle callbacks (`open`, `close`, `error`) plus wrapped-socket
construction are the events; timers scheduled by a callback are returned
as the list of their delays in milliseconds. -/

inductive ConnState
  | connected
  | disconnected
  | reconnecting
  | failed
deriving DecidableEq, Repr

/-- `window.__BETTER_GATEWAY_CONFIG__`, or the built-in default. -/
structure ReconnectConfig where
  reconnectIntervalMs : Nat
  maxReconnectAttempts : Nat
deriving DecidableEq, Repr

/-- The built-in fallback `{ reconnectIntervalMs: 3000, maxReconnectAttempts: 10 }`. -/
def defaultReconnectConfig : ReconnectConfig :=
  { reconnectIntervalMs := 3000, maxReconnectAttempts := 10 }

structure EngineState where
  reconnectAttempts : Nat
  activeConnections : Nat
  currentState : ConnState
  indicator : List Char
deriving DecidableEq, Repr

/-- `styles[state].icon` in `updateStatus`. -/
def iconOf : ConnState → List Char
  | .connected => "●".toList
  | .disconnected => "●".toList
  | .reconnecting => "↻".toList
  | .failed => "↻".toList

/-- `styles[state].clickHint || ""` in `updateStatus`. -/
def clickHintOf : ConnState → List Char
  | .disconnected => " (click to refresh)".toList
  | .failed => " (click to refresh)".toList
  | _ => []

/-- The indicator `innerHTML` written by `updateStatus(state, message)`:
an icon span followed by `message + clickHint`. -/
def renderIndicator (state : ConnState) (message : List Char) : List Char :=
  "<span style=\"margin-right: 6px;\">".toList ++ iconOf state ++ "</span>".toList
    ++ message ++ clickHintOf state

/-- The `"Reconnecting (" + reconnectAttempts + "/" + config.maxReconnectAttempts + ")..."`
message built in the close listener. -/
def reconnectingMessage (attempts maxAttempts : Nat) : List Char :=
  "Reconnecting (".toList ++ (Nat.repr attempts).toList ++ "/".toList
    ++ (Nat.repr maxAttempts).toList ++ ")...".toList

/-- Socket lifecycle events observed by the wrapped constructor. -/
inductive WsEvent
  | construct
  | wsOpen
  | wsClose (wasClean : Bool)
  | wsError
deriving DecidableEq, Repr

/-- One listener callback of `BetterWebSocket`: the next module state and
the delays (ms) of the reconnect timers scheduled by this callback. -/
def step (cfg : ReconnectConfig) (st : EngineState) : WsEvent → EngineState × List Nat
  | .construct =>
    ({ st with activeConnections := st.activeConnections + 1 }, [])
  | .wsOpen =>
    ({ st with
        reconnectAttempts := 0
        currentState := .connected
        indicator := renderIndicator .connected "Connected".toList }, [])
  | .wsClose wasClean =>
    let st := { st with activeConnections := st.activeConnections - 1 }
    if wasClean = false ∧ st.reconnectAttempts < cfg.maxReconnectAttempts then
      ({ st with
          reconnectAttempts := st.reconnectAttempts + 1
          currentState := .reconnecting
          indicator := renderIndicator .reconnecting
            (reconnectingMessage (st.reconnectAttempts + 1) cfg.maxReconnectAttempts) },
        [cfg.reconnectIntervalMs])
    else if cfg.maxReconnectAttempts ≤ st.reconnectAttempts then
      ({ st with
          currentState := .failed
          indicator := renderIndicator .failed "Connection failed".toList }, [])
    else
      ({ st with
          currentState := .disconnected
          indicator := renderIndicator .disconnected "Disconnected".toList }, [])
  | .wsError =>
    ({ st with
        currentState := .disconnected
        indicator := renderIndicator .disconnected "Connection error".toList }, [])

/-- Module state right after the script's top-level initialization ran
(`reconnectAttempts = 0`, `currentState = "connected"`,
`updateStatus("connected", "Ready")`). -/
def initState : EngineState :=
  { reconnectAttempts := 0
    activeConnections := 0
    currentState := .connected
    indicator := renderIndicator .connected "Ready".toList }

/-- Run a sequence of lifecycle events from a state, keeping only the state. -/
def runEvents (cfg : ReconnectConfig) (st : EngineState) : List WsEvent → EngineState
  | [] => st
  | e :: rest => runEvents cfg (step cfg st e).1 rest

/-! ## Proxy injector (`src/index.ts`) -/

/-- The plugin configuration parsed by `configSchema.parse`. -/
structure PluginConfig where
  upstreamHost : List Char
  upstreamPort : Nat
  reconnectIntervalMs : Nat
  maxReconnectAttempts : Nat
deriving DecidableEq, Repr

/-- `DEFAULT_CONFIG` in `src/index.ts`. -/
def DEFAULT_CONFIG : PluginConfig :=
  { upstreamHost := "localhost".toList
    upstreamPort := 18789
    reconnectIntervalMs := 3000
    maxReconnectAttempts := 10 }

/-- The configuration-assignment marker: the text every injected config
block starts its assignment with. -/
def configMarker : List Char := "window.__BETTER_GATEWAY_CONFIG__ = ".toList

/-- A base-href marker (the opening of a `<base` tag), which the spec says
is inserted into HTML bodies. -/
def baseHrefMarker : List Char := "<base".toList

/-- `JSON.stringify({ reconnectIntervalMs, maxReconnectAttempts })`. -/
def jsonConfig (cfg : PluginConfig) : List Char :=
  "\x7b\"reconnectIntervalMs\":".toList ++ (Nat.repr cfg.reconnectIntervalMs).toList
    ++ ",\"maxReconnectAttempts\":".toList ++ (Nat.repr cfg.maxReconnectAttempts).toList
    ++ "\x7d".toList

/-- The `configScript` template literal in `injectScriptIntoHtml`. -/
def configScript (cfg : PluginConfig) : List Char :=
  "<script>\n".toList ++ configMarker ++ jsonConfig cfg ++ ";\n</script>".toList

/-- `<script>${script}</script>`, wrapping the loaded `inject.js` text. -/
def scriptTag (script : List Char) : List Char :=
  "<script>".toList ++ script ++ "</script>".toList

/-- The full injected block `${configScript}<script>${script}</script>`. -/
def injectionBlock (cfg : PluginConfig) (script : List Char) : List Char :=
  configScript cfg ++ scriptTag script

def bodyClose : List Char := "</body>".toList

def htmlClose : List Char := "</html>".toList

/-- `injectScriptIntoHtml(html, config)` from `src/index.ts`, with the
loaded `inject.js` text passed explicitly as `script`. -/
def injectScriptIntoHtml (cfg : PluginConfig) (script html : List Char) : List Char :=
  let injection := injectionBlock cfg script
  if containsSub bodyClose html then
    replaceFirst bodyClose (injection ++ bodyClose) html
  else if containsSub htmlClose html then
    replaceFirst htmlClose (injection ++ htmlClose) html
  else
    html ++ injection

/-- An upstream HTTP response as seen by the proxy callback
(Node lowercases incoming header names). -/
structure UpstreamResponse where
  statusCode : Option Nat
  headers : List (List Char × List Char)
  body : List Char
deriving DecidableEq, Repr

/-- The response written back to the original caller. -/
structure ClientResponse where
  status : Nat
  headers : List (List Char × List Char)
  body : List Char
deriving DecidableEq, Repr

/-- First-match association lookup, the object-property read
`headers["content-type"]`. -/
def headerLookup (k : List Char) : List (List Char × List Char) → Option (List Char)
  | [] => none
  | kv :: rest => if kv.1 = k then some kv.2 else headerLookup k rest

/-- `proxyRes.headers["content-type"] || ""`. -/
def contentTypeOf (r : UpstreamResponse) : List Char :=
  (headerLookup "content-type".toList r.headers).getD []

/-- `contentType.includes("text/html")`. -/
def isHtml (r : UpstreamResponse) : Bool :=
  containsSub "text/html".toList (contentTypeOf r)

/-- `Buffer.byteLength` of a string under Node's default UTF-8 encoding. -/
def byteLength (s : List Char) : Nat := (s.map Char.utf8Size).sum

/-- Headers of the rewritten HTML response: `{...proxyRes.headers}` with
`content-length` deleted and re-assigned (a fresh assignment lands at the
end of the object's key order). -/
def htmlHeaders (headers : List (List Char × List Char)) (modified : List Char) :
    List (List Char × List Char) :=
  (headers.filter fun kv => kv.1 ≠ "content-length".toList)
    ++ [("content-length".toList, (Nat.repr (byteLength modified)).toList)]

/-- The upstream-response callback of `proxyRequest`: HTML bodies are
buffered and rewritten with recomputed `content-length`; everything else
is piped through with the headers spread unchanged. -/
def handleProxyRes (cfg : PluginConfig) (script : List Char) (r : UpstreamResponse) :
    ClientResponse :=
  if isHtml r then
    let modified := injectScriptIntoHtml cfg script r.body
    { status := r.statusCode.getD 200
      headers := htmlHeaders r.headers modified
      body := modified }
  else
    { status := r.statusCode.getD 200
      headers := r.headers
      body := r.body }

/-- Outcome of the single upstream request issued by `proxyRequest`:
either a response or an `error` event on the client request object. -/
inductive UpstreamOutcome
  | ok (r : UpstreamResponse)
  | err (msg : List Char)

/-- `proxyRequest`'s behaviour toward the original caller, as a function
of the one upstream outcome (the code attaches a single error handler and
never re-issues the request). -/
def proxyRequest (cfg : PluginConfig) (script : List Char) :
    UpstreamOutcome → ClientResponse
  | .ok r => handleProxyRes cfg script r
  | .err msg =>
    { status := 502
      headers := [("Content-Type".toList, "text/plain".toList)]
      body := "Upstream connection failed: ".toList ++ msg }

/-- The inbound request fields that `proxyRequest` consumes. -/
structure InboundRequest where
  method : List Char
  headers : List (List Char × List Char)
  body : List Char
deriving DecidableEq, Repr

/-- The options and body of the one upstream request `proxyRequest` issues. -/
structure UpstreamRequest where
  hostname : List Char
  port : Nat
  path : List Char
  method : List Char
  headers : List (List Char × List Char)
  body : Option (List Char)
deriving DecidableEq, Repr

/-- The upstream request built by `proxyRequest`: original method and
headers with `host` overridden, and the request body piped through only
for methods other than GET/HEAD (`proxyReq.end()` otherwise). -/
def upstreamRequestOf (cfg : PluginConfig) (req : InboundRequest) (targetPath : List Char) :
    UpstreamRequest :=
  { hostname := cfg.upstreamHost
    port := cfg.upstreamPort
    path := targetPath
    method := req.method
    headers := (req.headers.filter fun kv => kv.1 ≠ "host".toList)
      ++ [("host".toList,
           cfg.upstreamHost ++ ":".toList ++ (Nat.repr cfg.upstreamPort).toList)]
    body :=
      if req.method ≠ "GET".toList ∧ req.method ≠ "HEAD".toList then some req.body
      else none }

/-- Result of the registered HTTP handler: `declined` is `return false`
(the request is not in the namespace); `proxied p` records the target path
forwarded to the upstream before `return true`. -/
inductive HandlerResult
  | declined
  | proxied (targetPath : List Char)
deriving DecidableEq, Repr

def nsPrefix : List Char := "/better-gateway".toList

/-- The handler registered by `register`: a raw `startsWith` test on the
pathname, then `pathname.replace(/^\/better-gateway/, "") || "/"` plus the
query string. -/
def httpHandler (pathname search : List Char) : HandlerResult :=
  if nsPrefix.isPrefixOf pathname then
    let stripped := pathname.drop nsPrefix.length
    let targetPath := if stripped = [] then "/".toList else stripped
    .proxied (if search = [] then targetPath else targetPath ++ search)
  else
    .declined

/-- All characters of `Nat.repr n` are decimal digits and there is at
least one; stated as a decidable side condition on configuration values. -/
def reprDigits (n : Nat) : Prop :=
  (Nat.repr n).toList ≠ [] ∧ ∀ c ∈ (Nat.repr n).toList, c.isDigit = true

instance (n : Nat) : Decidable (reprDigits n) := by
  unfold reprDigits
  infer_instance

/-! ## Helper lemmas about the text utilities -/

theorem isPrefixOf_bridge {l₁ l₂ : List Char} : l₁.isPrefixOf l₂ = true ↔ l₁ <+: l₂ :=
  List.isPrefixOf_iff_prefix

theorem getLast?_mem_of (l : List Char) (ch : Char) (h : l.getLast? = some ch) :
    ch ∈ l := by
  have h2 := List.dropLast_append_getLast? ch (show ch ∈ l.getLast? by rw [h]; rfl)
  rw [← h2]
  exact List.mem_append_right _ (List.mem_singleton.mpr rfl)

theorem prefix_of_prefix_append (m l b : List Char) (hle : m.length ≤ l.length)
    (h : m <+: l ++ b) : m <+: l := by
  have ht := List.prefix_iff_eq_take.mp h
  rw [List.take_append_eq_append_take, Nat.sub_eq_zero_of_le hle] at ht
  simp only [List.take_zero, List.append_nil] at ht
  exact List.prefix_iff_eq_take.mpr ht

theorem prefix_append_iff_of_head (m l b : List Char) (_hm : m ≠ [])
    (ch : Char) (hb : b.head? = some ch) (hch : ch ∉ m) :
    (m <+: l ++ b) ↔ (m <+: l) := by
  constructor
  · intro h
    rcases le_or_lt m.length l.length with hle | hlt
    · exact prefix_of_prefix_append m l b hle h
    · exfalso
      have ht := List.prefix_iff_eq_take.mp h
      rw [List.take_append_eq_append_take,
        List.take_of_length_le (Nat.le_of_lt hlt)] at ht
      have hk : 0 < m.length - l.length := Nat.sub_pos_of_lt hlt
      cases hbv : b with
      | nil => rw [hbv] at hb; simp at hb
      | cons x b2 =>
        have hx : x = ch := by rw [hbv] at hb; simpa using hb
        have hxm : x ∈ m := by
          rw [ht, hbv]
          have h3 : (x :: b2).take (m.length - l.length)
              = x :: b2.take (m.length - l.length - 1) := by
            cases hkk : m.length - l.length with
            | zero => omega
            | succ n => simp
          rw [h3]
          exact List.mem_append_right _ (List.mem_cons_self _ _)
        exact hch (hx ▸ hxm)
  · intro h
    exact h.trans (List.prefix_append l b)

theorem prefix_append_iff_of_last (m l b : List Char) (_hm : m ≠ [])
    (ch : Char) (hl : l.getLast? = some ch) (hch : ch ∉ m) :
    (m <+: l ++ b) ↔ (m <+: l) := by
  constructor
  · intro h
    rcases le_or_lt m.length l.length with hle | hlt
    · exact prefix_of_prefix_append m l b hle h
    · exfalso
      have ht := List.prefix_iff_eq_take.mp h
      rw [List.take_append_eq_append_take,
        List.take_of_length_le (Nat.le_of_lt hlt)] at ht
      have hsub : l ⊆ m := by
        rw [ht]; exact fun x hx => List.mem_append_left _ hx
      exact hch (hsub (getLast?_mem_of l ch hl))
  · intro h
    exact h.trans (List.prefix_append l b)

theorem countOccs_append_of_head (m a b : List Char) (hm : m ≠ [])
    (ch : Char) (hb : b.head? = some ch) (hch : ch ∉ m) :
    countOccs m (a ++ b) = countOccs m a + countOccs m b := by
  induction a with
  | nil => simp [countOccs]
  | cons c t ih =>
    have hbb : m.isPrefixOf (c :: (t ++ b)) = m.isPrefixOf (c :: t) := by
      rw [Bool.eq_iff_iff, isPrefixOf_bridge, isPrefixOf_bridge]
      exact prefix_append_iff_of_head m (c :: t) b hm ch hb hch
    show (if m.isPrefixOf (c :: (t ++ b)) then 1 else 0) + countOccs m (t ++ b)
        = ((if m.isPrefixOf (c :: t) then 1 else 0) + countOccs m t) + countOccs m b
    rw [hbb, ih]
    omega

theorem countOccs_append_of_last (m a b : List Char) (hm : m ≠ [])
    (ch : Char) (ha : a.getLast? = some ch) (hch : ch ∉ m) :
    countOccs m (a ++ b) = countOccs m a + countOccs m b := by
  induction a with
  | nil => simp at ha
  | cons c t ih =>
    have hbb : m.isPrefixOf (c :: (t ++ b)) = m.isPrefixOf (c :: t) := by
      rw [Bool.eq_iff_iff, isPrefixOf_bridge, isPrefixOf_bridge]
      exact prefix_append_iff_of_last m (c :: t) b hm ch ha hch
    by_cases htne : t = []
    · subst htne
      simp only [List.nil_append] at hbb
      show (if m.isPrefixOf (c :: b) then 1 else 0) + countOccs m b
          = ((if m.isPrefixOf [c] then 1 else 0) + countOccs m []) + countOccs m b
      rw [hbb]
      simp [countOccs]
    · obtain ⟨t0, ts, htv⟩ := List.exists_cons_of_ne_nil htne
      have ha2 : t.getLast? = some ch := by
        rw [htv]
        rw [htv, List.getLast?_cons_cons] at ha
        exact ha
      show (if m.isPrefixOf (c :: (t ++ b)) then 1 else 0) + countOccs m (t ++ b)
          = ((if m.isPrefixOf (c :: t) then 1 else 0) + countOccs m t) + countOccs m b
      rw [hbb, ih ha2]
      omega

theorem countOccs_eq_zero_of_head (m s : List Char) (mh : Char)
    (hm : m.head? = some mh) (hs : ∀ c ∈ s, c ≠ mh) : countOccs m s = 0 := by
  induction s with
  | nil => rfl
  | cons c t ih =>
    have h1 : m.isPrefixOf (c :: t) = false := by
      cases hp : m.isPrefixOf (c :: t) with
      | false => rfl
      | true =>
        exfalso
        obtain ⟨r, hr⟩ := isPrefixOf_bridge.mp hp
        cases hmv : m with
        | nil => rw [hmv] at hm; simp at hm
        | cons m0 mt =>
          rw [hmv] at hm hr
          have hm0 : m0 = mh := by simpa using hm
          have hc : m0 = c := by
            have := congrArg List.head? hr
            simpa using this
          exact hs c (List.mem_cons_self _ _) (hc ▸ hm0)
    show (if m.isPrefixOf (c :: t) then 1 else 0) + countOccs m t = 0
    rw [h1]
    simp only [Bool.false_eq_true, if_false, Nat.zero_add]
    exact ih fun c2 hc2 => hs c2 (List.mem_cons_of_mem _ hc2)

theorem replaceFirst_spec (pat repl s : List Char) (hpat : pat ≠ [])
    (h : containsSub pat s = true) :
    ∃ u v, s = u ++ pat ++ v ∧ replaceFirst pat repl s = u ++ repl ++ v := by
  induction s with
  | nil =>
    exfalso
    have : pat.isEmpty = true := h
    rw [List.isEmpty_iff] at this
    exact hpat this
  | cons c t ih =>
    by_cases hp : pat.isPrefixOf (c :: t) = true
    · refine ⟨[], (c :: t).drop pat.length, ?_, ?_⟩
      · have hpre := isPrefixOf_bridge.mp hp
        have htake := List.prefix_iff_eq_take.mp hpre
        conv_lhs => rw [← List.take_append_drop pat.length (c :: t)]
        rw [← htake]
        simp
      · show replaceFirst pat repl (c :: t) = [] ++ repl ++ (c :: t).drop pat.length
        simp [replaceFirst, hp]
    · have h2 : containsSub pat t = true := by
        have h3 : (pat.isPrefixOf (c :: t) || containsSub pat t) = true := h
        rcases Bool.or_eq_true_iff.mp h3 with h4 | h4
        · exact absurd h4 hp
        · exact h4
      obtain ⟨u, v, h5, h6⟩ := ih h2
      refine ⟨c :: u, v, ?_, ?_⟩
      · simp [h5]
      · show replaceFirst pat repl (c :: t) = (c :: u) ++ repl ++ v
        simp [replaceFirst, hp, h6]

theorem containsSub_false_nil (pat : List Char)
    (s : List Char) (h : containsSub pat s = false) : countOccs pat s = 0 := by
  induction s with
  | nil => rfl
  | cons c t ih =>
    have h3 : (pat.isPrefixOf (c :: t) || containsSub pat t) = false := h
    rcases Bool.or_eq_false_iff.mp h3 with ⟨h4, h5⟩
    show (if pat.isPrefixOf (c :: t) then 1 else 0) + countOccs pat t = 0
    rw [h4]
    simp only [Bool.false_eq_true, if_false, Nat.zero_add]
    exact ih h5

theorem headerLookup_filter_append (k v : List Char)
    (hs : List (List Char × List Char)) :
    headerLookup k ((hs.filter fun kv => kv.1 ≠ k) ++ [(k, v)]) = some v := by
  induction hs with
  | nil => simp [headerLookup]
  | cons kv rest ih =>
    by_cases h : kv.1 = k
    · simp only [List.filter_cons, h]
      simpa using ih
    · simp only [List.filter_cons]
      rw [if_pos (by simpa using h)]
      show headerLookup k (kv :: ((rest.filter fun kv => kv.1 ≠ k) ++ [(k, v)])) = some v
      simp only [headerLookup, if_neg h]
      exact ih

theorem head?_append_concrete (a b : List Char) (ch : Char) (h : a.head? = some ch) :
    (a ++ b).head? = some ch := by
  rw [List.head?_append, h]
  rfl

theorem getLast?_append_concrete (a b : List Char) (ch : Char) (h : b.getLast? = some ch) :
    (a ++ b).getLast? = some ch := by
  rw [List.getLast?_append, h]
  rfl

theorem scriptTag_head (script : List Char) : (scriptTag script).head? = some '<' := by
  unfold scriptTag
  simp only [List.append_assoc]
  exact head?_append_concrete _ _ _ (by decide)

theorem injectionBlock_head (cfg : PluginConfig) (script : List Char) :
    (injectionBlock cfg script).head? = some '<' := by
  unfold injectionBlock configScript
  simp only [List.append_assoc]
  exact head?_append_concrete _ _ _ (by decide)

/-- The configuration script block contains the configuration-assignment
marker exactly once. -/
theorem countOccs_configScript (cfg : PluginConfig)
    (hra : reprDigits cfg.reconnectIntervalMs)
    (hrb : reprDigits cfg.maxReconnectAttempts) :
    countOccs configMarker (configScript cfg) = 1 := by
  obtain ⟨da, dsa, hdav⟩ := List.exists_cons_of_ne_nil hra.1
  obtain ⟨db, dsb, hdbv⟩ := List.exists_cons_of_ne_nil hrb.1
  have hnodig : ∀ c ∈ configMarker, c.isDigit = false := by decide
  have hram : ∀ c ∈ (Nat.repr cfg.reconnectIntervalMs).toList, c ≠ 'w' := by
    intro c hc he
    have hd := hra.2 c hc
    rw [he] at hd
    exact absurd hd (by decide)
  have hrbm : ∀ c ∈ (Nat.repr cfg.maxReconnectAttempts).toList, c ≠ 'w' := by
    intro c hc he
    have hd := hrb.2 c hc
    rw [he] at hd
    exact absurd hd (by decide)
  have hdam : da ∉ configMarker := by
    intro hmem
    have h1 := hnodig da hmem
    have h2 := hra.2 da (by rw [hdav]; exact List.mem_cons_self _ _)
    rw [h1] at h2
    exact Bool.false_ne_true h2
  have hdbm : db ∉ configMarker := by
    intro hmem
    have h1 := hnodig db hmem
    have h2 := hrb.2 db (by rw [hdbv]; exact List.mem_cons_self _ _)
    rw [h1] at h2
    exact Bool.false_ne_true h2
  have hra_head : (Nat.repr cfg.reconnectIntervalMs).toList.head? = some da := by
    rw [hdav]; rfl
  have hrb_head : (Nat.repr cfg.maxReconnectAttempts).toList.head? = some db := by
    rw [hdbv]; rfl
  unfold configScript jsonConfig
  simp only [List.append_assoc]
  rw [countOccs_append_of_last configMarker "<script>\n".toList _ (by decide)
    '\n' (by decide) (by decide)]
  rw [countOccs_append_of_head configMarker configMarker _ (by decide)
    '\x7b' (head?_append_concrete _ _ _ (by decide)) (by decide)]
  rw [countOccs_append_of_head configMarker "\x7b\"reconnectIntervalMs\":".toList _
    (by decide) da (head?_append_concrete _ _ _ hra_head) hdam]
  rw [countOccs_append_of_head configMarker (Nat.repr cfg.reconnectIntervalMs).toList _
    (by decide) ',' (head?_append_concrete _ _ _ (by decide)) (by decide)]
  rw [countOccs_append_of_head configMarker ",\"maxReconnectAttempts\":".toList _
    (by decide) db (head?_append_concrete _ _ _ hrb_head) hdbm]
  rw [countOccs_append_of_head configMarker (Nat.repr cfg.maxReconnectAttempts).toList _
    (by decide) '\x7d' (head?_append_concrete _ _ _ (by decide)) (by decide)]
  rw [countOccs_eq_zero_of_head configMarker (Nat.repr cfg.reconnectIntervalMs).toList
    'w' (by decide) hram]
  rw [countOccs_eq_zero_of_head configMarker (Nat.repr cfg.maxReconnectAttempts).toList
    'w' (by decide) hrbm]
  rw [show countOccs configMarker "<script>\n".toList = 0 from by decide]
  rw [show countOccs configMarker configMarker = 1 from by decide]
  rw [show countOccs configMarker "\x7b\"reconnectIntervalMs\":".toList = 0 from by decide]
  rw [show countOccs configMarker ",\"maxReconnectAttempts\":".toList = 0 from by decide]
  rw [show countOccs configMarker ("\x7d".toList ++ ";\n</script>".toList) = 0 from by decide]

/-- The whole injected block contains the configuration-assignment marker
exactly once, provided the wrapped reconnect script itself does not
contain it (true of the repository's `inject.js`). -/
theorem countOccs_injectionBlock (cfg : PluginConfig) (script : List Char)
    (hra : reprDigits cfg.reconnectIntervalMs)
    (hrb : reprDigits cfg.maxReconnectAttempts)
    (hscript : countOccs configMarker (scriptTag script) = 0) :
    countOccs configMarker (injectionBlock cfg script) = 1 := by
  unfold injectionBlock
  rw [countOccs_append_of_head configMarker (configScript cfg) _ (by decide)
    '<' (scriptTag_head script) (by decide)]
  rw [countOccs_configScript cfg hra hrb, hscript]

/-- Inserting the injected block just before a closing tag occurrence
keeps exactly one configuration-assignment marker in the result, and the
result is the original text with the block spliced in before the tag. -/
theorem countOccs_inject_case (pat : List Char) (hpat : pat ≠ [])
    (hpat_head : pat.head? = some '<') (hpat_last : pat.getLast? = some '>')
    (hpat_cnt : countOccs configMarker pat = 0)
    (cfg : PluginConfig) (script html : List Char)
    (hra : reprDigits cfg.reconnectIntervalMs)
    (hrb : reprDigits cfg.maxReconnectAttempts)
    (hscript : countOccs configMarker (scriptTag script) = 0)
    (hhtml : countOccs configMarker html = 0)
    (hc : containsSub pat html = true) :
    countOccs configMarker
        (replaceFirst pat (injectionBlock cfg script ++ pat) html) = 1
    ∧ ∃ u v, html = u ++ pat ++ v
        ∧ replaceFirst pat (injectionBlock cfg script ++ pat) html
          = u ++ injectionBlock cfg script ++ pat ++ v := by
  obtain ⟨u, v, hdecomp, hres⟩ :=
    replaceFirst_spec pat (injectionBlock cfg script ++ pat) html hpat hc
  have hlt : '<' ∉ configMarker := by decide
  have hgt : '>' ∉ configMarker := by decide
  have hmne : configMarker ≠ [] := by decide
  have hu0 : countOccs configMarker u = 0 ∧ countOccs configMarker v = 0 := by
    have h1 : countOccs configMarker (u ++ (pat ++ v))
        = countOccs configMarker u + countOccs configMarker (pat ++ v) :=
      countOccs_append_of_head configMarker u (pat ++ v) hmne '<'
        (head?_append_concrete _ _ _ hpat_head) hlt
    have h2 : countOccs configMarker (pat ++ v)
        = countOccs configMarker pat + countOccs configMarker v :=
      countOccs_append_of_last configMarker pat v hmne '>' hpat_last hgt
    have h3 : countOccs configMarker html = countOccs configMarker u
        + countOccs configMarker pat + countOccs configMarker v := by
      rw [hdecomp, List.append_assoc, h1, h2]
      omega
    rw [hhtml] at h3
    omega
  have hrepl : countOccs configMarker (injectionBlock cfg script ++ pat) = 1 := by
    rw [countOccs_append_of_head configMarker (injectionBlock cfg script) pat hmne
      '<' hpat_head hlt]
    rw [countOccs_injectionBlock cfg script hra hrb hscript, hpat_cnt]
  constructor
  · rw [hres, List.append_assoc]
    rw [countOccs_append_of_head configMarker u
      ((injectionBlock cfg script ++ pat) ++ v) hmne '<'
      (head?_append_concrete _ _ _
        (head?_append_concrete _ _ _ (injectionBlock_head cfg script))) hlt]
    rw [countOccs_append_of_last configMarker (injectionBlock cfg script ++ pat) v hmne
      '>' (getLast?_append_concrete _ _ _ hpat_last) hgt]
    rw [hrepl, hu0.1, hu0.2]
  · refine ⟨u, v, hdecomp, ?_⟩
    rw [hres]
    simp [List.append_assoc]

/-! ## Reconnect-engine claims -/

theorem step_attempts_le (cfg : ReconnectConfig) (st : EngineState) (e : WsEvent)
    (h : st.reconnectAttempts ≤ cfg.maxReconnectAttempts) :
    (step cfg st e).1.reconnectAttempts ≤ cfg.maxReconnectAttempts := by
  cases e with
  | construct => exact h
  | wsOpen => exact Nat.zero_le _
  | wsError => exact h
  | wsClose wasClean =>
    simp only [step]
    split
    · next hcond => exact hcond.2
    · split
      · exact h
      · exact h

theorem runEvents_attempts_le (cfg : ReconnectConfig) (evs : List WsEvent)
    (st : EngineState) (h : st.reconnectAttempts ≤ cfg.maxReconnectAttempts) :
    (runEvents cfg st evs).reconnectAttempts ≤ cfg.maxReconnectAttempts := by
  induction evs generalizing st with
  | nil => exact h
  | cons e rest ih => exact ih _ (step_attempts_le cfg st e h)

/-- Claim C1: over every sequence of socket lifecycle events the retry
counter never exceeds `maxReconnectAttempts`, and an unclean close that
arrives with the counter at the maximum turns the state `Failed` and
schedules no reconnect timer. -/
theorem c1_retry_counter_bounded (cfg : ReconnectConfig) (evs : List WsEvent)
    (st : EngineState) (hmax : st.reconnectAttempts = cfg.maxReconnectAttempts) :
    (runEvents cfg initState evs).reconnectAttempts ≤ cfg.maxReconnectAttempts
    ∧ (step cfg st (.wsClose false)).1.currentState = .failed
    ∧ (step cfg st (.wsClose false)).2 = [] := by
  refine ⟨runEvents_attempts_le cfg evs initState (Nat.zero_le _), ?_, ?_⟩
  · simp [step, hmax]
  · simp [step, hmax]

/-- Witness for C1 at a concrete configuration, trace, and state. -/
theorem c1_retry_counter_bounded_witness :
    (runEvents (ReconnectConfig.mk 3000 2) initState
        [WsEvent.wsClose false, WsEvent.wsClose false]).reconnectAttempts ≤ 2
    ∧ (step (ReconnectConfig.mk 3000 2)
        (EngineState.mk 2 0 ConnState.reconnecting []) (WsEvent.wsClose false)).1.currentState
      = ConnState.failed
    ∧ (step (ReconnectConfig.mk 3000 2)
        (EngineState.mk 2 0 ConnState.reconnecting []) (WsEvent.wsClose false)).2 = [] :=
  c1_retry_counter_bounded (ReconnectConfig.mk 3000 2)
    [WsEvent.wsClose false, WsEvent.wsClose false]
    (EngineState.mk 2 0 ConnState.reconnecting []) (by decide)

/-- Claim C2: an unclean close arriving with the counter strictly below
the maximum increments the counter by exactly one, moves the state to
`Reconnecting`, shows `attempt/max` in the indicator, and schedules
exactly one reconnect timer with delay `reconnectIntervalMs`. -/
theorem c2_unclean_close_below_max (cfg : ReconnectConfig) (st : EngineState)
    (h : st.reconnectAttempts < cfg.maxReconnectAttempts) :
    (step cfg st (.wsClose false)).1.reconnectAttempts = st.reconnectAttempts + 1
    ∧ (step cfg st (.wsClose false)).1.currentState = .reconnecting
    ∧ (∃ pre suf, (step cfg st (.wsClose false)).1.indicator
        = pre ++ ((Nat.repr (st.reconnectAttempts + 1)).toList ++ "/".toList
          ++ (Nat.repr cfg.maxReconnectAttempts).toList) ++ suf)
    ∧ (step cfg st (.wsClose false)).2 = [cfg.reconnectIntervalMs] := by
  refine ⟨?_, ?_,
    ⟨"<span style=\"margin-right: 6px;\">".toList ++ iconOf .reconnecting
      ++ "</span>".toList ++ "Reconnecting (".toList, ")...".toList, ?_⟩, ?_⟩
  all_goals
    simp [step, h, renderIndicator, reconnectingMessage, clickHintOf, List.append_assoc]

/-- Witness for C2 at the default configuration and the initial state. -/
theorem c2_unclean_close_below_max_witness :
    (step defaultReconnectConfig initState (.wsClose false)).1.reconnectAttempts
      = initState.reconnectAttempts + 1
    ∧ (step defaultReconnectConfig initState (.wsClose false)).1.currentState
      = .reconnecting
    ∧ (∃ pre suf, (step defaultReconnectConfig initState (.wsClose false)).1.indicator
        = pre ++ ((Nat.repr (initState.reconnectAttempts + 1)).toList ++ "/".toList
          ++ (Nat.repr defaultReconnectConfig.maxReconnectAttempts).toList) ++ suf)
    ∧ (step defaultReconnectConfig initState (.wsClose false)).2
      = [defaultReconnectConfig.reconnectIntervalMs] :=
  c2_unclean_close_below_max defaultReconnectConfig initState (by decide)

/-- Counterexample to claim C3 as stated: with `maxReconnectAttempts = 1`,
after one unclean close and the timer-spawned reconnect socket, a CLEAN
close arrives with the counter at the maximum and the state becomes
`Failed`, not `Disconnected`. -/
theorem c3_clean_close_counterexample :
    (step (ReconnectConfig.mk 3000 1)
        (runEvents (ReconnectConfig.mk 3000 1) initState
          [WsEvent.construct, WsEvent.wsClose false, WsEvent.construct])
        (WsEvent.wsClose true)).1.currentState ≠ ConnState.disconnected
    ∧ (step (ReconnectConfig.mk 3000 1)
        (runEvents (ReconnectConfig.mk 3000 1) initState
          [WsEvent.construct, WsEvent.wsClose false, WsEvent.construct])
        (WsEvent.wsClose true)).1.currentState = ConnState.failed := by
  constructor
  · decide
  · decide

/-- Claim C3 (amended): a clean close never schedules a reconnect timer;
it sets the state to `Disconnected` when the counter is strictly below
`maxReconnectAttempts`, but to `Failed` once the counter has reached it. -/
theorem c3_clean_close_no_retry (cfg : ReconnectConfig) (st : EngineState) :
    (step cfg st (.wsClose true)).2 = []
    ∧ (step cfg st (.wsClose true)).1.currentState
      = (if cfg.maxReconnectAttempts ≤ st.reconnectAttempts then ConnState.failed
         else ConnState.disconnected) := by
  by_cases hle : cfg.maxReconnectAttempts ≤ st.reconnectAttempts
  · constructor <;> simp [step, hle]
  · constructor <;> simp [step, hle]

/-- Claim C4: an `open` event resets the retry counter to 0 and sets the
state to `Connected`. -/
theorem c4_open_resets_counter (cfg : ReconnectConfig) (st : EngineState) :
    (step cfg st .wsOpen).1.reconnectAttempts = 0
    ∧ (step cfg st .wsOpen).1.currentState = .connected :=
  ⟨rfl, rfl⟩

/-! ## Proxy-injector claims -/

set_option maxRecDepth 40000 in
/-- Counterexample to claim C5 as stated: on a concrete HTML body with
both a head and a body section, the rewritten body contains no base-href
marker at all (the code never inserts one), so it cannot contain exactly
one. -/
theorem c5_base_href_counterexample :
    countOccs baseHrefMarker
      (injectScriptIntoHtml DEFAULT_CONFIG "(function () \x7b\x7d)();".toList
        "<html><head></head><body>hi</body></html>".toList) = 0 := by
  decide

/-- Claim C5 (amended): the HTML rewrite splices the config-plus-script
block immediately before the first closing body tag, else before the
first closing html tag, else appends it at the end; a body holding no
configuration assignment is rewritten to hold exactly one; and the
`content-length` header is recomputed as the byte length of the rewritten
body. -/
theorem c5_html_rewrite (cfg : PluginConfig) (script html : List Char)
    (hra : reprDigits cfg.reconnectIntervalMs)
    (hrb : reprDigits cfg.maxReconnectAttempts)
    (hscript : countOccs configMarker (scriptTag script) = 0)
    (hhtml : countOccs configMarker html = 0) :
    countOccs configMarker (injectScriptIntoHtml cfg script html) = 1
    ∧ (containsSub bodyClose html = true →
        ∃ u v, html = u ++ bodyClose ++ v
          ∧ injectScriptIntoHtml cfg script html
            = u ++ injectionBlock cfg script ++ bodyClose ++ v)
    ∧ (containsSub bodyClose html = false → containsSub htmlClose html = true →
        ∃ u v, html = u ++ htmlClose ++ v
          ∧ injectScriptIntoHtml cfg script html
            = u ++ injectionBlock cfg script ++ htmlClose ++ v)
    ∧ (containsSub bodyClose html = false → containsSub htmlClose html = false →
        injectScriptIntoHtml cfg script html = html ++ injectionBlock cfg script)
    ∧ (∀ r : UpstreamResponse, isHtml r = true → r.body = html →
        headerLookup "content-length".toList (handleProxyRes cfg script r).headers
          = some (Nat.repr (byteLength (injectScriptIntoHtml cfg script html))).toList) := by
  have hcl : ∀ r : UpstreamResponse, isHtml r = true → r.body = html →
      headerLookup "content-length".toList (handleProxyRes cfg script r).headers
        = some (Nat.repr (byteLength (injectScriptIntoHtml cfg script html))).toList := by
    intro r hr hb
    subst hb
    simp only [handleProxyRes, hr, if_true, htmlHeaders]
    exact headerLookup_filter_append _ _ _
  by_cases hbody : containsSub bodyClose html = true
  · have hcase := countOccs_inject_case bodyClose (by decide) (by decide) (by decide)
      (by decide) cfg script html hra hrb hscript hhtml hbody
    have heq : injectScriptIntoHtml cfg script html
        = replaceFirst bodyClose (injectionBlock cfg script ++ bodyClose) html := by
      simp [injectScriptIntoHtml, hbody]
    refine ⟨?_, ?_, ?_, ?_, hcl⟩
    · rw [heq]; exact hcase.1
    · intro _
      obtain ⟨u, v, h1, h2⟩ := hcase.2
      exact ⟨u, v, h1, by rw [heq, h2]⟩
    · intro h1 _
      rw [hbody] at h1
      exact absurd h1 (by decide)
    · intro h1 _
      rw [hbody] at h1
      exact absurd h1 (by decide)
  · have hbody2 : containsSub bodyClose html = false := by
      cases h : containsSub bodyClose html
      · rfl
      · exact absurd h hbody
    by_cases hhtm : containsSub htmlClose html = true
    · have hcase := countOccs_inject_case htmlClose (by decide) (by decide) (by decide)
        (by decide) cfg script html hra hrb hscript hhtml hhtm
      have heq : injectScriptIntoHtml cfg script html
          = replaceFirst htmlClose (injectionBlock cfg script ++ htmlClose) html := by
        simp [injectScriptIntoHtml, hbody2, hhtm]
      refine ⟨?_, ?_, ?_, ?_, hcl⟩
      · rw [heq]; exact hcase.1
      · intro h1
        rw [hbody2] at h1
        exact absurd h1 (by decide)
      · intro _ _
        obtain ⟨u, v, h1, h2⟩ := hcase.2
        exact ⟨u, v, h1, by rw [heq, h2]⟩
      · intro _ h2
        rw [hhtm] at h2
        exact absurd h2 (by decide)
    · have hhtm2 : containsSub htmlClose html = false := by
        cases h : containsSub htmlClose html
        · rfl
        · exact absurd h hhtm
      have heq : injectScriptIntoHtml cfg script html
          = html ++ injectionBlock cfg script := by
        simp [injectScriptIntoHtml, hbody2, hhtm2]
      refine ⟨?_, ?_, ?_, ?_, hcl⟩
      · rw [heq]
        rw [countOccs_append_of_head configMarker html (injectionBlock cfg script)
          (by decide) '<' (injectionBlock_head cfg script) (by decide)]
        rw [hhtml, countOccs_injectionBlock cfg script hra hrb hscript]
      · intro h1
        rw [hbody2] at h1
        exact absurd h1 (by decide)
      · intro _ h2
        rw [hhtm2] at h2
        exact absurd h2 (by decide)
      · intro _ _
        exact heq

/-- Witness for the amended C5 theorem at the default configuration, a
concrete script, and a concrete HTML body. -/
theorem c5_html_rewrite_witness :
    countOccs configMarker
        (injectScriptIntoHtml DEFAULT_CONFIG "(function () \x7b\x7d)();".toList
          "<html><head></head><body>hi</body></html>".toList) = 1
    ∧ (containsSub bodyClose "<html><head></head><body>hi</body></html>".toList = true →
        ∃ u v, "<html><head></head><body>hi</body></html>".toList = u ++ bodyClose ++ v
          ∧ injectScriptIntoHtml DEFAULT_CONFIG "(function () \x7b\x7d)();".toList
              "<html><head></head><body>hi</body></html>".toList
            = u ++ injectionBlock DEFAULT_CONFIG "(function () \x7b\x7d)();".toList
              ++ bodyClose ++ v) := by
  have h := c5_html_rewrite DEFAULT_CONFIG "(function () \x7b\x7d)();".toList
    "<html><head></head><body>hi</body></html>".toList
    (by decide) (by decide) (by decide) (by decide)
  exact ⟨h.1, h.2.1⟩

/-- Claim C6: a non-HTML upstream response is delivered to the original
caller with the body unchanged and all upstream headers preserved. -/
theorem c6_non_html_passthrough (cfg : PluginConfig) (script : List Char)
    (r : UpstreamResponse) (h : isHtml r = false) :
    (handleProxyRes cfg script r).body = r.body
    ∧ (handleProxyRes cfg script r).headers = r.headers := by
  constructor <;> simp [handleProxyRes, h]

/-- Witness for C6 on a concrete JSON response. -/
theorem c6_non_html_passthrough_witness :
    (handleProxyRes DEFAULT_CONFIG []
        (UpstreamResponse.mk (some 200)
          [("content-type".toList, "application/json".toList)] "abc".toList)).body
      = "abc".toList
    ∧ (handleProxyRes DEFAULT_CONFIG []
        (UpstreamResponse.mk (some 200)
          [("content-type".toList, "application/json".toList)] "abc".toList)).headers
      = [("content-type".toList, "application/json".toList)] :=
  c6_non_html_passthrough DEFAULT_CONFIG []
    (UpstreamResponse.mk (some 200)
      [("content-type".toList, "application/json".toList)] "abc".toList) (by decide)

/-- Claim C7: when the single upstream request errors, the caller receives
status 502 with a `text/plain` content type and a human-readable
diagnostic carrying the error message; the model is a function of one
upstream outcome, so no second upstream request exists to retry. -/
theorem c7_upstream_failure_502 (cfg : PluginConfig) (script msg : List Char) :
    (proxyRequest cfg script (.err msg)).status = 502
    ∧ (proxyRequest cfg script (.err msg)).headers
      = [("Content-Type".toList, "text/plain".toList)]
    ∧ (proxyRequest cfg script (.err msg)).body
      = "Upstream connection failed: ".toList ++ msg :=
  ⟨rfl, rfl, rfl⟩

/-- Counterexample to claim C8 as stated: a GET to
`/better-gateway/unknown-path` is proxied upstream as `/unknown-path`
rather than answered with a structured not-found result. -/
theorem c8_unknown_subpath_counterexample :
    httpHandler "/better-gateway/unknown-path".toList []
      = HandlerResult.proxied "/unknown-path".toList := by
  decide

/-- Claim C8 (amended): the handler has no reserved sub-paths and no
not-found result: every request whose pathname lies inside the namespace
is proxied with the prefix stripped (in particular `prefix/unknown-path`
proxies to `/unknown-path`), never answered with a structured not-found. -/
theorem c8_namespace_always_proxies (rest search : List Char) :
    (∃ tp, httpHandler (nsPrefix ++ rest) search = HandlerResult.proxied tp)
    ∧ httpHandler "/better-gateway/unknown-path".toList []
      = HandlerResult.proxied "/unknown-path".toList := by
  constructor
  · have h : nsPrefix.isPrefixOf (nsPrefix ++ rest) = true :=
      isPrefixOf_bridge.mpr (List.prefix_append _ _)
    have hdrop : (nsPrefix ++ rest).drop nsPrefix.length = rest := List.drop_left _ _
    refine ⟨if search = [] then (if rest = [] then "/".toList else rest)
        else (if rest = [] then "/".toList else rest) ++ search, ?_⟩
    simp [httpHandler, h, hdrop]
  · decide

/-- Claim C9: request methods other than GET and HEAD forward the inbound
request body to the upstream request; GET and HEAD complete the upstream
request with no body. -/
theorem c9_request_body_forwarding (cfg : PluginConfig) (req : InboundRequest)
    (targetPath : List Char) :
    (req.method ≠ "GET".toList → req.method ≠ "HEAD".toList →
      (upstreamRequestOf cfg req targetPath).body = some req.body)
    ∧ (req.method = "GET".toList ∨ req.method = "HEAD".toList →
      (upstreamRequestOf cfg req targetPath).body = none) := by
  constructor
  · intro h1 h2
    show (if req.method ≠ "GET".toList ∧ req.method ≠ "HEAD".toList
        then some req.body else none) = some req.body
    exact if_pos ⟨h1, h2⟩
  · rintro (h | h)
    · show (if req.method ≠ "GET".toList ∧ req.method ≠ "HEAD".toList
          then some req.body else none) = none
      exact if_neg fun hc => hc.1 h
    · show (if req.method ≠ "GET".toList ∧ req.method ≠ "HEAD".toList
          then some req.body else none) = none
      exact if_neg fun hc => hc.2 h

/-- Witness for C9: a POST body is forwarded, a GET body is not. -/
theorem c9_request_body_forwarding_witness :
    (upstreamRequestOf DEFAULT_CONFIG
        (InboundRequest.mk "POST".toList [] "xyz".toList) "/".toList).body
      = some "xyz".toList
    ∧ (upstreamRequestOf DEFAULT_CONFIG
        (InboundRequest.mk "GET".toList [] "xyz".toList) "/".toList).body
      = none :=
  ⟨(c9_request_body_forwarding DEFAULT_CONFIG
      (InboundRequest.mk "POST".toList [] "xyz".toList) "/".toList).1
      (by decide) (by decide),
    (c9_request_body_forwarding DEFAULT_CONFIG
      (InboundRequest.mk "GET".toList [] "xyz".toList) "/".toList).2
      (Or.inl rfl)⟩

/-- Claim C10: namespace matching is a raw string-prefix test: every
pathname beginning with the literal `/better-gateway` is claimed and
proxied with exactly that literal prefix stripped (plus the query
string) — including `/better-gatewayfoo`, which proxies to `foo` — while
pathnames not beginning with the literal are declined. -/
theorem c10_raw_prefix_match (rest search : List Char) :
    httpHandler (nsPrefix ++ rest) search
      = HandlerResult.proxied ((if rest = [] then "/".toList else rest) ++ search)
    ∧ httpHandler "/better-gatewayfoo".toList []
      = HandlerResult.proxied "foo".toList
    ∧ (∀ pathname : List Char, nsPrefix.isPrefixOf pathname = false →
        httpHandler pathname search = .declined) := by
  refine ⟨?_, by decide, ?_⟩
  · have h : nsPrefix.isPrefixOf (nsPrefix ++ rest) = true :=
      isPrefixOf_bridge.mpr (List.prefix_append _ _)
    have hdrop : (nsPrefix ++ rest).drop nsPrefix.length = rest := List.drop_left _ _
    by_cases hs : search = []
    · simp [httpHandler, h, hdrop, hs]
    · simp [httpHandler, h, hdrop, hs]
  · intro pathname hp
    simp [httpHandler, hp]

/-- Witness for C10 at concrete paths. -/
theorem c10_raw_prefix_match_witness :
    httpHandler (nsPrefix ++ "/x".toList) "?q=1".toList
      = HandlerResult.proxied
          ((if "/x".toList = ([] : List Char) then "/".toList else "/x".toList)
            ++ "?q=1".toList)
    ∧ httpHandler "/xyz".toList "?q=1".toList = HandlerResult.declined :=
  ⟨(c10_raw_prefix_match "/x".toList "?q=1".toList).1,
    (c10_raw_prefix_match "/x".toList "?q=1".toList).2.2 "/xyz".toList (by decide)⟩

end BetterGateway
